import Mathlib

/-!
Slack mention bot: event dispatch and reply construction.

A shallow embedding of `main.go` (`processNewEvents`, `handleEventMessage`,
`handleAppMentionEvent`).  The vendor SDK, the process environment, the clock
and the standard library's case table are external collaborators: they are
gathered in the structure `Platform`, over an abstract world state `σ`.
Every call that leaves the program (acknowledgement, user lookup, post, log
line) is recorded, in program order, in the `trace` of the state.

Pointers handed over by the SDK (`event.Request`, the narrowed
`*AppMentionEvent`, the `*User` of a successful lookup) are taken to be
non-nil.
-/

namespace SlackBot

/-! ## Data model -/

/-- A non-nil Go `error` value; `nil` is `none : Option Error`. -/
structure Error where
  msg : String
  deriving DecidableEq, Repr

/-- The fields of `slack.User` that the program reads. -/
structure User where
  ID : String
  Name : String
  RealName : String
  deriving DecidableEq, Repr

/-- Go `slack.AttachmentField`. -/
structure AttachmentField where
  Title : String := ""
  Value : String := ""
  Short : Bool := false
  deriving DecidableEq, Repr

/-- The fields of `slack.Attachment` that the program sets; the others keep
their zero value. -/
structure Attachment where
  Color : String := ""
  Pretext : String := ""
  Text : String := ""
  Fields : List AttachmentField := []
  deriving DecidableEq, Repr

/-- Go `slackevents.AppMentionEvent` (the fields a mention carries). -/
structure AppMentionEvent where
  User : String
  Text : String
  Channel : String
  deriving DecidableEq, Repr

/-- The dynamic type of `innerEvent.Data`: either a `*slackevents.AppMentionEvent`
or a value of some other type (named by `kind`). -/
inductive InnerEventData where
  | appMention (ev : AppMentionEvent)
  | other (kind : String)
  deriving DecidableEq, Repr

/-- Go `slackevents.EventsAPIInnerEvent`. -/
structure EventsAPIInnerEvent where
  Type_ : String
  Data : InnerEventData
  deriving DecidableEq, Repr

/-- Go `slackevents.EventsAPIEvent`. -/
structure EventsAPIEvent where
  Type_ : String
  InnerEvent : EventsAPIInnerEvent
  deriving DecidableEq, Repr

/-- Go `socketmode.Request`, the envelope that an acknowledgement answers. -/
structure Request where
  EnvelopeID : String
  deriving DecidableEq, Repr

/-- The dynamic type of `event.Data`: either a `slackevents.EventsAPIEvent` or a
value of some other type (named by `kind`). -/
inductive EventData where
  | eventsAPI (e : EventsAPIEvent)
  | other (kind : String)
  deriving DecidableEq, Repr

/-- Go `socketmode.Event`. -/
structure Event where
  Type_ : String
  Data : EventData
  Request : Request
  deriving DecidableEq, Repr

/-- One observable call made by the program, in the order it is made. -/
inductive Call where
  | ack (req : Request)
  | getUserInfo (user : String)
  | postMessage (channelID : String) (attachment : Attachment)
  | logCastFailure (event : Event)
  | logError (err : Error)
  | logShutdown
  deriving DecidableEq, Repr

/-- The external collaborators, over a world state `σ`: the SDK's constants and
operations, the process environment, the local clock, and the standard
library's lower-case mapping of the runes above ASCII. -/
structure Platform (σ : Type) where
  /-- Constant `socketmode.EventTypeEventsAPI`. -/
  EventTypeEventsAPI : String
  /-- Constant `slackevents.CallbackEvent`. -/
  CallbackEvent : String
  /-- Operation `slackClient.GetUserInfo`. -/
  GetUserInfo : String → σ → Except Error User × σ
  /-- Operation `slackClient.PostMessage`; only its error result is used. -/
  PostMessage : String → Attachment → σ → Option Error × σ
  /-- Operation `socketClient.Ack`. -/
  Ack : Request → σ → σ
  /-- Rendering `time.Now().Local().String()` in the current world. -/
  Now : σ → String
  /-- Lookup `os.Getenv`. -/
  Getenv : String → String
  /-- Case table of `unicode.ToLower` for the runes above ASCII. -/
  unicodeLower : Char → Char

/-- The program state: the external world and the calls made so far. -/
structure State (σ : Type) where
  world : σ
  trace : List Call

/-! ## Standard-library string functions -/

/-- Go `unicode.ToLower` on one rune: ASCII capitals move to their small
letter, other ASCII runes are unchanged, the rest goes through the case
table. -/
def toLowerRune (table : Char → Char) (c : Char) : Char :=
  if c.toNat < 128 then
    if 65 ≤ c.toNat ∧ c.toNat ≤ 90 then Char.ofNat (c.toNat + 32) else c
  else table c

/-- Go `strings.ToLower`: every rune mapped by `unicode.ToLower`. -/
def ToLower (table : Char → Char) (s : String) : String :=
  ⟨s.data.map (toLowerRune table)⟩

/-- Go `strings.HasPrefix`, on rune lists. -/
def startsWith : List Char → List Char → Bool
  | _, [] => true
  | [], _ :: _ => false
  | c :: s, d :: p => c == d && startsWith s p

/-- Substring search on rune lists: does `sub` occur at some position of `s`. -/
def containsChars : List Char → List Char → Bool
  | [], sub => startsWith [] sub
  | c :: s, sub => startsWith (c :: s) sub || containsChars s sub

/-- Go `strings.Contains`.  The texts are valid UTF-8 (they come out of the JSON
decoder), where an occurrence of an ASCII needle byte by byte is an occurrence rune
by rune. -/
def Contains (s substr : String) : Bool :=
  containsChars s.data substr.data

/-! ## The program -/

/-- Append one call to the trace and install the new world. -/
def State.record {σ : Type} (s : State σ) (w : σ) (c : Call) : State σ :=
  ⟨w, s.trace ++ [c]⟩

/-- Go `handleAppMentionEvent`: look the user up, build the attachment from the
lower-cased text, post it to the configured channel. -/
def handleAppMentionEvent {σ : Type} (P : Platform σ) (event : AppMentionEvent)
    (s : State σ) : Option Error × State σ :=
  let r := P.GetUserInfo event.User s.world
  let s1 := s.record r.2 (Call.getUserInfo event.User)
  match r.1 with
  | .error err => (some err, s1)
  | .ok user =>
    let text := ToLower P.unicodeLower event.Text
    let attachment : Attachment :=
      { Fields :=
          [ { Title := "Date", Value := P.Now s1.world },
            { Title := "Initializer", Value := user.Name, Short := true } ] }
    let attachment : Attachment :=
      if Contains text "hello" then
        { attachment with
          Text := "Hello, " ++ user.RealName
          Pretext := "Greetings"
          Color := "#4af030" }
      else
        { attachment with
          Text := "How can I help you " ++ user.RealName ++ "?"
          Pretext := "How can I be of service?"
          Color := "#3d3d3d" }
    let channelId := P.Getenv "SLACK_CHANNEL_ID"
    let p := P.PostMessage channelId attachment s1.world
    let s2 := s1.record p.2 (Call.postMessage channelId attachment)
    match p.1 with
    | some err => (some err, s2)
    | none => (none, s2)

/-- Go `handleEventMessage`: only a callback event carrying an app mention is
handled. -/
def handleEventMessage {σ : Type} (P : Platform σ) (event : EventsAPIEvent)
    (s : State σ) : Option Error × State σ :=
  if event.Type_ = P.CallbackEvent then
    let innerEvent := event.InnerEvent
    match innerEvent.Data with
    | .appMention ev =>
      let r := handleAppMentionEvent P ev s
      match r.1 with
      | some err => (some err, r.2)
      | none => (none, r.2)
    | .other _ => (none, s)
  else
    (some ⟨"unsupported event type"⟩, s)

/-- The body of `case event := <-socketClient.Events` in `processNewEvents`. -/
def processEvent {σ : Type} (P : Platform σ) (event : Event) (s : State σ) : State σ :=
  if event.Type_ = P.EventTypeEventsAPI then
    match event.Data with
    | .other _ => s.record s.world (Call.logCastFailure event)
    | .eventsAPI eventsAPIEvent =>
      let s1 := s.record (P.Ack event.Request s.world) (Call.ack event.Request)
      let r := handleEventMessage P eventsAPIEvent s1
      match r.1 with
      | some err => r.2.record r.2.world (Call.logError err)
      | none => r.2
  else
    s

/-- What one round of the `select` in `processNewEvents` receives. -/
inductive Selected where
  | done
  | event (e : Event)
  deriving DecidableEq, Repr

/-- Go `processNewEvents`, run over the outcomes of its successive `select`
rounds: cancellation logs and returns, an event is processed and the loop goes
on; when the outcomes are used up the loop is blocked in `select`. -/
def processNewEvents {σ : Type} (P : Platform σ) : List Selected → State σ → State σ
  | [], s => s
  | .done :: _, s => s.record s.world Call.logShutdown
  | .event e :: rest, s => processNewEvents P rest (processEvent P e s)

/-! ## Reading a trace -/

/-- The outbound posts of a trace, in order. -/
def posts : List Call → List (String × Attachment)
  | [] => []
  | .postMessage ch a :: t => (ch, a) :: posts t
  | _ :: t => posts t

/-- The acknowledgements of a trace, in order. -/
def acks : List Call → List Request
  | [] => []
  | .ack r :: t => r :: acks t
  | _ :: t => acks t

/-- The user lookups of a trace, in order. -/
def lookups : List Call → List String
  | [] => []
  | .getUserInfo u :: t => u :: lookups t
  | _ :: t => lookups t

/-- The calls made on the way from state `s` to the later state `s2`. -/
def State.since {σ : Type} (s2 s : State σ) : List Call :=
  s2.trace.drop s.trace.length

/-- The attachment `handleAppMentionEvent` hands to `PostMessage` for a resolved
user, in the world `w` reached after the lookup. -/
def replyAttachment {σ : Type} (P : Platform σ) (event : AppMentionEvent) (user : User)
    (w : σ) : Attachment :=
  if Contains (ToLower P.unicodeLower event.Text) "hello" then
    ⟨"#4af030", "Greetings", "Hello, " ++ user.RealName,
      [⟨"Date", P.Now w, false⟩, ⟨"Initializer", user.Name, true⟩]⟩
  else
    ⟨"#3d3d3d", "How can I be of service?", "How can I help you " ++ user.RealName ++ "?",
      [⟨"Date", P.Now w, false⟩, ⟨"Initializer", user.Name, true⟩]⟩

/-- Is the event one that `processNewEvents` hands to `handleEventMessage`: of the
events-API type and carrying an events-API payload. -/
def Event.dispatched {σ : Type} (P : Platform σ) (e : Event) : Bool :=
  decide (e.Type_ = P.EventTypeEventsAPI) &&
    match e.Data with
    | .eventsAPI _ => true
    | .other _ => false

/-- A small concrete platform: the world is a step counter, the only known user
is `U1`, and posting fails when the channel is not configured. -/
def demo : Platform Nat where
  EventTypeEventsAPI := "events_api"
  CallbackEvent := "event_callback"
  GetUserInfo := fun id w =>
    (if id = "U1" then .ok ⟨"U1", "alice", "Alice A"⟩
     else if id = "U2" then .ok ⟨"U2", "bob", "Bob B"⟩
     else .error ⟨"user_not_found"⟩, w + 1)
  PostMessage := fun ch _ w => (if ch = "" then some ⟨"channel_not_found"⟩ else none, w + 1)
  Ack := fun _ w => w + 1
  Now := fun w => "t" ++ toString w
  Getenv := fun k => if k = "SLACK_CHANNEL_ID" then "C42" else ""
  unicodeLower := fun c => c


/-- The demo platform with another directory: every identifier resolves to a
profile whose name is that identifier itself. -/
def mirror : Platform Nat where
  EventTypeEventsAPI := "events_api"
  CallbackEvent := "event_callback"
  GetUserInfo := fun id w => (.ok ⟨id, id, "Dana D"⟩, w + 1)
  PostMessage := fun ch _ w => (if ch = "" then some ⟨"channel_not_found"⟩ else none, w + 1)
  Ack := fun _ w => w + 1
  Now := fun w => "t" ++ toString w
  Getenv := fun k => if k = "SLACK_CHANNEL_ID" then "C42" else ""
  unicodeLower := fun c => c

/-! ## Substring search -/

theorem startsWith_iff (s p : List Char) : startsWith s p = true ↔ p <+: s := by
  induction s generalizing p with
  | nil => cases p <;> simp [startsWith]
  | cons c s ih =>
    cases p with
    | nil => simp [startsWith]
    | cons d p =>
      simp only [startsWith, Bool.and_eq_true, beq_iff_eq, ih, List.cons_prefix_cons]
      constructor
      · rintro ⟨h, k⟩; exact ⟨h.symm, k⟩
      · rintro ⟨h, k⟩; exact ⟨h.symm, k⟩

theorem containsChars_iff (s sub : List Char) : containsChars s sub = true ↔ sub <:+: s := by
  induction s with
  | nil => simp [containsChars, startsWith_iff]
  | cons c s ih =>
    simp only [containsChars, Bool.or_eq_true, startsWith_iff, ih, List.infix_cons_iff]

theorem Contains_iff (s substr : String) :
    Contains s substr = true ↔ substr.data <:+: s.data := by
  simp [Contains, containsChars_iff]

theorem ToLower_append (table : Char → Char) (a b : String) :
    ToLower table (a ++ b) = ToLower table a ++ ToLower table b := by
  simp [ToLower, String.ext_iff]

/-! ## Shape of one reply -/

theorem handleAppMentionEvent_error {σ : Type} (P : Platform σ) (ev : AppMentionEvent)
    (s : State σ) (err : Error) (h : (P.GetUserInfo ev.User s.world).1 = .error err) :
    handleAppMentionEvent P ev s =
      (some err, ⟨(P.GetUserInfo ev.User s.world).2, s.trace ++ [Call.getUserInfo ev.User]⟩) := by
  simp [handleAppMentionEvent, h, State.record]

theorem handleAppMentionEvent_ok {σ : Type} (P : Platform σ) (ev : AppMentionEvent)
    (s : State σ) (user : User) (h : (P.GetUserInfo ev.User s.world).1 = .ok user) :
    handleAppMentionEvent P ev s =
      ((P.PostMessage (P.Getenv "SLACK_CHANNEL_ID")
          (replyAttachment P ev user (P.GetUserInfo ev.User s.world).2)
          (P.GetUserInfo ev.User s.world).2).1,
        ⟨(P.PostMessage (P.Getenv "SLACK_CHANNEL_ID")
            (replyAttachment P ev user (P.GetUserInfo ev.User s.world).2)
            (P.GetUserInfo ev.User s.world).2).2,
          s.trace ++ [Call.getUserInfo ev.User,
            Call.postMessage (P.Getenv "SLACK_CHANNEL_ID")
              (replyAttachment P ev user (P.GetUserInfo ev.User s.world).2)]⟩) := by
  simp only [handleAppMentionEvent, h, State.record, replyAttachment]
  split_ifs <;> split <;> simp_all

theorem posts_append (a b : List Call) : posts (a ++ b) = posts a ++ posts b := by
  induction a with
  | nil => rfl
  | cons c a ih => cases c <;> simp [posts, ih]

theorem acks_append (a b : List Call) : acks (a ++ b) = acks a ++ acks b := by
  induction a with
  | nil => rfl
  | cons c a ih => cases c <;> simp [acks, ih]

theorem lookups_append (a b : List Call) : lookups (a ++ b) = lookups a ++ lookups b := by
  induction a with
  | nil => rfl
  | cons c a ih => cases c <;> simp [lookups, ih]

theorem since_of_append {σ : Type} (s2 s : State σ) (extra : List Call)
    (h : s2.trace = s.trace ++ extra) : s2.since s = extra := by
  simp [State.since, h]

theorem since_handleAppMentionEvent_error {σ : Type} (P : Platform σ) (ev : AppMentionEvent)
    (s : State σ) (err : Error) (h : (P.GetUserInfo ev.User s.world).1 = .error err) :
    (handleAppMentionEvent P ev s).2.since s = [Call.getUserInfo ev.User] := by
  apply since_of_append
  rw [handleAppMentionEvent_error P ev s err h]

theorem since_handleAppMentionEvent_ok {σ : Type} (P : Platform σ) (ev : AppMentionEvent)
    (s : State σ) (user : User) (h : (P.GetUserInfo ev.User s.world).1 = .ok user) :
    (handleAppMentionEvent P ev s).2.since s =
      [Call.getUserInfo ev.User,
        Call.postMessage (P.Getenv "SLACK_CHANNEL_ID")
          (replyAttachment P ev user (P.GetUserInfo ev.User s.world).2)] := by
  apply since_of_append
  rw [handleAppMentionEvent_ok P ev s user h]

/-- Lower-casing any casing of the word gives the word, whatever the case table
says about the runes above ASCII. -/
theorem toLower_casing (table : Char → Char) (a b c d e : Char)
    (ha : a ∈ ['h', 'H']) (hb : b ∈ ['e', 'E']) (hc : c ∈ ['l', 'L'])
    (hd : d ∈ ['l', 'L']) (he : e ∈ ['o', 'O']) :
    ToLower table ⟨[a, b, c, d, e]⟩ = "hello" := by
  simp only [List.mem_cons, List.mem_singleton, List.not_mem_nil, or_false] at ha hb hc hd he
  rcases ha with rfl | rfl <;> rcases hb with rfl | rfl <;> rcases hc with rfl | rfl <;>
    rcases hd with rfl | rfl <;> rcases he with rfl | rfl <;> rfl

theorem Contains_casing (table : Char → Char) (pre suf : String) (a b c d e : Char)
    (ha : a ∈ ['h', 'H']) (hb : b ∈ ['e', 'E']) (hc : c ∈ ['l', 'L'])
    (hd : d ∈ ['l', 'L']) (he : e ∈ ['o', 'O']) :
    Contains (ToLower table (pre ++ ⟨[a, b, c, d, e]⟩ ++ suf)) "hello" = true := by
  rw [ToLower_append, ToLower_append, toLower_casing table a b c d e ha hb hc hd he,
    Contains_iff]
  exact ⟨(ToLower table pre).data, (ToLower table suf).data, by simp⟩

/-! ## The claims -/

/-- C1: when the lookup succeeds and the lower-cased text contains "hello", the one
attachment posted has pretext "Greetings", text "Hello, " followed by the user's
real name, and colour "#4af030"; any casing of "hello" with any surrounding
characters in the original text is such a text. -/
theorem greeting_template {σ : Type} (P : Platform σ) (ev : AppMentionEvent) (s : State σ)
    (user : User) (hlook : (P.GetUserInfo ev.User s.world).1 = .ok user) :
    (Contains (ToLower P.unicodeLower ev.Text) "hello" = true →
      (posts ((handleAppMentionEvent P ev s).2.since s)).map
          (fun p => (p.2.Pretext, p.2.Text, p.2.Color)) =
        [("Greetings", "Hello, " ++ user.RealName, "#4af030")]) ∧
    (∀ (pre suf : String) (a b c d e : Char),
      a ∈ ['h', 'H'] → b ∈ ['e', 'E'] → c ∈ ['l', 'L'] → d ∈ ['l', 'L'] → e ∈ ['o', 'O'] →
      ev.Text = pre ++ ⟨[a, b, c, d, e]⟩ ++ suf →
      Contains (ToLower P.unicodeLower ev.Text) "hello" = true) := by
  refine ⟨fun hc => ?_, ?_⟩
  · rw [since_handleAppMentionEvent_ok P ev s user hlook]
    simp [posts, replyAttachment, hc]
  · intro pre suf a b c d e ha hb hc hd he htxt
    rw [htxt]
    exact Contains_casing _ pre suf a b c d e ha hb hc hd he

/-- Witness of C1 on the demo platform: user `U1` writes "@bot HeLLo there". -/
theorem greeting_template_witness :
    (demo.GetUserInfo "U1" 0).1 = .ok ⟨"U1", "alice", "Alice A"⟩ ∧
    Contains (ToLower demo.unicodeLower "@bot HeLLo there") "hello" = true ∧
    (posts ((handleAppMentionEvent demo ⟨"U1", "@bot HeLLo there", "C1"⟩ ⟨0, []⟩).2.since
        ⟨0, []⟩)).map (fun p => (p.2.Pretext, p.2.Text, p.2.Color)) =
      [("Greetings", "Hello, " ++ "Alice A", "#4af030")] :=
  ⟨rfl, by decide,
    (greeting_template demo ⟨"U1", "@bot HeLLo there", "C1"⟩ ⟨0, []⟩ ⟨"U1", "alice", "Alice A"⟩
      rfl).1 (by decide)⟩

/-- C2: when the lookup succeeds and the lower-cased text does not contain "hello",
the one attachment posted has pretext "How can I be of service?", text
"How can I help you " followed by the real name and "?", and colour "#3d3d3d"; the
text "@bot what is the status" from a user whose real name is "Bob B" gives
"How can I help you Bob B?"; and every reply is exactly one of the two templates. -/
theorem fallback_template {σ : Type} (P : Platform σ) (ev : AppMentionEvent) (s : State σ)
    (user : User) (hlook : (P.GetUserInfo ev.User s.world).1 = .ok user) :
    (Contains (ToLower P.unicodeLower ev.Text) "hello" = false →
      (posts ((handleAppMentionEvent P ev s).2.since s)).map
          (fun p => (p.2.Pretext, p.2.Text, p.2.Color)) =
        [("How can I be of service?", "How can I help you " ++ user.RealName ++ "?",
          "#3d3d3d")]) ∧
    (ev.Text = "@bot what is the status" → user.RealName = "Bob B" →
      (posts ((handleAppMentionEvent P ev s).2.since s)).map
          (fun p => (p.2.Pretext, p.2.Text, p.2.Color)) =
        [("How can I be of service?", "How can I help you Bob B?", "#3d3d3d")]) ∧
    ((posts ((handleAppMentionEvent P ev s).2.since s)).map
          (fun p => (p.2.Pretext, p.2.Text, p.2.Color)) =
        [("Greetings", "Hello, " ++ user.RealName, "#4af030")] ∨
      (posts ((handleAppMentionEvent P ev s).2.since s)).map
          (fun p => (p.2.Pretext, p.2.Text, p.2.Color)) =
        [("How can I be of service?", "How can I help you " ++ user.RealName ++ "?",
          "#3d3d3d")]) ∧
    ¬ ((posts ((handleAppMentionEvent P ev s).2.since s)).map
          (fun p => (p.2.Pretext, p.2.Text, p.2.Color)) =
        [("Greetings", "Hello, " ++ user.RealName, "#4af030")] ∧
      (posts ((handleAppMentionEvent P ev s).2.since s)).map
          (fun p => (p.2.Pretext, p.2.Text, p.2.Color)) =
        [("How can I be of service?", "How can I help you " ++ user.RealName ++ "?",
          "#3d3d3d")]) := by
  rw [since_handleAppMentionEvent_ok P ev s user hlook]
  refine ⟨fun hc => ?_, fun htxt hname => ?_, ?_, ?_⟩
  · simp [posts, replyAttachment, hc]
  · have hc : Contains (ToLower P.unicodeLower ev.Text) "hello" = false := by
      rw [htxt]; rfl
    simp only [posts, replyAttachment, hc, hname]
    rfl
  · cases hc : Contains (ToLower P.unicodeLower ev.Text) "hello"
    · right; simp [posts, replyAttachment, hc]
    · left; simp [posts, replyAttachment, hc]
  · rintro ⟨h1, h2⟩
    rw [h1] at h2
    simp at h2

/-- Witness of C2 on the demo platform: user `U2` asks for the status. -/
theorem fallback_template_witness :
    (demo.GetUserInfo "U2" 0).1 = .ok ⟨"U2", "bob", "Bob B"⟩ ∧
    (posts ((handleAppMentionEvent demo ⟨"U2", "@bot what is the status", "C1"⟩
        ⟨0, []⟩).2.since ⟨0, []⟩)).map (fun p => (p.2.Pretext, p.2.Text, p.2.Color)) =
      [("How can I be of service?", "How can I help you Bob B?", "#3d3d3d")] :=
  ⟨rfl,
    (fallback_template demo ⟨"U2", "@bot what is the status", "C1"⟩ ⟨0, []⟩
      ⟨"U2", "bob", "Bob B"⟩ rfl).2.1 rfl rfl⟩

/-- C3: the error result of `handleAppMentionEvent`: a failed lookup returns the
lookup's error unchanged, after the lookup alone and without any post; after a
successful lookup the result is exactly the error result of the one post (the
post's error when it fails, nil otherwise). -/
theorem error_result {σ : Type} (P : Platform σ) (ev : AppMentionEvent) (s : State σ) :
    (∀ err, (P.GetUserInfo ev.User s.world).1 = .error err →
      (handleAppMentionEvent P ev s).1 = some err ∧
      (handleAppMentionEvent P ev s).2.since s = [Call.getUserInfo ev.User] ∧
      posts ((handleAppMentionEvent P ev s).2.since s) = []) ∧
    (∀ user, (P.GetUserInfo ev.User s.world).1 = .ok user →
      ∃ ch att,
        (handleAppMentionEvent P ev s).2.since s =
          [Call.getUserInfo ev.User, Call.postMessage ch att] ∧
        (handleAppMentionEvent P ev s).1 =
          (P.PostMessage ch att (P.GetUserInfo ev.User s.world).2).1 ∧
        (∀ perr, (P.PostMessage ch att (P.GetUserInfo ev.User s.world).2).1 = some perr →
          (handleAppMentionEvent P ev s).1 = some perr) ∧
        ((P.PostMessage ch att (P.GetUserInfo ev.User s.world).2).1 = none →
          (handleAppMentionEvent P ev s).1 = none)) := by
  refine ⟨fun err h => ?_, fun user h => ?_⟩
  · rw [since_handleAppMentionEvent_error P ev s err h]
    rw [handleAppMentionEvent_error P ev s err h]
    exact ⟨rfl, rfl, rfl⟩
  · refine ⟨P.Getenv "SLACK_CHANNEL_ID",
      replyAttachment P ev user (P.GetUserInfo ev.User s.world).2, ?_, ?_, ?_, ?_⟩
    · exact since_handleAppMentionEvent_ok P ev s user h
    · rw [handleAppMentionEvent_ok P ev s user h]
    · intro perr hp
      rw [handleAppMentionEvent_ok P ev s user h]
      exact hp
    · intro hp
      rw [handleAppMentionEvent_ok P ev s user h]
      exact hp

/-- Witness of C3 on the demo platform: the unknown user `U9` makes the lookup
fail, and its error comes back with no post made. -/
theorem error_result_witness :
    (demo.GetUserInfo "U9" 0).1 = .error ⟨"user_not_found"⟩ ∧
    (handleAppMentionEvent demo ⟨"U9", "hello", "C1"⟩ ⟨0, []⟩).1 = some ⟨"user_not_found"⟩ ∧
    (handleAppMentionEvent demo ⟨"U9", "hello", "C1"⟩ ⟨0, []⟩).2.since ⟨0, []⟩ =
      [Call.getUserInfo "U9"] ∧
    posts ((handleAppMentionEvent demo ⟨"U9", "hello", "C1"⟩ ⟨0, []⟩).2.since ⟨0, []⟩) = [] :=
  ⟨rfl, (error_result demo ⟨"U9", "hello", "C1"⟩ ⟨0, []⟩).1 ⟨"user_not_found"⟩ rfl⟩

/-- Passing an error on when it is non-nil and returning nil otherwise is
returning the callee's result. -/
theorem handleEventMessage_eq {σ : Type} (P : Platform σ) (x : EventsAPIEvent)
    (s : State σ) :
    handleEventMessage P x s =
      if x.Type_ = P.CallbackEvent then
        match x.InnerEvent.Data with
        | .appMention ev => handleAppMentionEvent P ev s
        | .other _ => (none, s)
      else (some ⟨"unsupported event type"⟩, s) := by
  unfold handleEventMessage
  split_ifs with h
  · cases hd : x.InnerEvent.Data with
    | appMention ev =>
      simp only [hd]
      cases hr : (handleAppMentionEvent P ev s).1 with
      | none => exact Prod.ext hr.symm rfl
      | some err => exact Prod.ext hr.symm rfl
    | other k => simp only [hd]
  · rfl

/-- Calls of `handleEventMessage`: nothing, unless the event is a callback whose
payload is an app mention, in which case they are those of
`handleAppMentionEvent`. -/
theorem since_handleEventMessage {σ : Type} (P : Platform σ) (x : EventsAPIEvent)
    (s : State σ) :
    (handleEventMessage P x s).2.since s =
      if x.Type_ = P.CallbackEvent then
        match x.InnerEvent.Data with
        | .appMention ev => (handleAppMentionEvent P ev s).2.since s
        | .other _ => []
      else [] := by
  rw [handleEventMessage_eq]
  split_ifs with h
  · cases hd : x.InnerEvent.Data with
    | appMention ev => rfl
    | other k => simp [State.since]
  · simp [State.since]

/-- Calls of `handleAppMentionEvent`: the lookup, then at most the one post. -/
theorem since_handleAppMentionEvent {σ : Type} (P : Platform σ) (ev : AppMentionEvent)
    (s : State σ) :
    (handleAppMentionEvent P ev s).2.since s = [Call.getUserInfo ev.User] ∨
    ∃ att, (handleAppMentionEvent P ev s).2.since s =
      [Call.getUserInfo ev.User, Call.postMessage (P.Getenv "SLACK_CHANNEL_ID") att] := by
  cases h : (P.GetUserInfo ev.User s.world).1 with
  | error err => exact Or.inl (since_handleAppMentionEvent_error P ev s err h)
  | ok user => exact Or.inr ⟨_, since_handleAppMentionEvent_ok P ev s user h⟩

/-- C4: `handleEventMessage` makes at most one outbound post, and makes one only
when the event's type is the callback type and its inner payload is an app-mention
event. -/
theorem at_most_one_post {σ : Type} (P : Platform σ) (x : EventsAPIEvent) (s : State σ) :
    (posts ((handleEventMessage P x s).2.since s)).length ≤ 1 ∧
    (posts ((handleEventMessage P x s).2.since s) ≠ [] →
      x.Type_ = P.CallbackEvent ∧ ∃ ev, x.InnerEvent.Data = .appMention ev) := by
  rw [since_handleEventMessage]
  split_ifs with h
  · cases hd : x.InnerEvent.Data with
    | appMention ev =>
      refine ⟨?_, fun _ => ⟨h, ev, rfl⟩⟩
      rcases since_handleAppMentionEvent P ev s with h1 | ⟨att, h1⟩ <;> simp [h1, posts]
    | other k => simp [posts]
  · simp [posts]

/-- Witness of C4 on the demo platform: a callback carrying a mention by `U1`
makes one post. -/
theorem at_most_one_post_witness :
    posts ((handleEventMessage demo
        ⟨"event_callback", ⟨"app_mention", .appMention ⟨"U1", "hello", "C1"⟩⟩⟩
        ⟨0, []⟩).2.since ⟨0, []⟩) ≠ [] ∧
    ("event_callback" = demo.CallbackEvent ∧
      ∃ ev, InnerEventData.appMention ⟨"U1", "hello", "C1"⟩ = .appMention ev) :=
  ⟨by decide,
    (at_most_one_post demo
      ⟨"event_callback", ⟨"app_mention", .appMention ⟨"U1", "hello", "C1"⟩⟩⟩ ⟨0, []⟩).2
      (by decide)⟩

/-- C5 as stated fails: when the lookup of the identifier "U4" returns a profile
whose name is "U4", the "Initializer" field of the reply holds "U4", the raw
identifier carried by the event. -/
theorem raw_identifier_counterexample :
    (mirror.GetUserInfo (⟨"U4", "hello", "C1"⟩ : AppMentionEvent).User 0).1 =
      .ok ⟨"U4", "U4", "Dana D"⟩ ∧
    (posts ((handleAppMentionEvent mirror ⟨"U4", "hello", "C1"⟩ ⟨0, []⟩).2.since
        ⟨0, []⟩)).map (fun p => p.2.Fields) =
      [[⟨"Date", "t1", false⟩,
        ⟨"Initializer", (⟨"U4", "hello", "C1"⟩ : AppMentionEvent).User, true⟩]] ∧
    ¬ ∀ p ∈ posts ((handleAppMentionEvent mirror ⟨"U4", "hello", "C1"⟩ ⟨0, []⟩).2.since
        ⟨0, []⟩), ∀ f ∈ p.2.Fields, f.Title = "Initializer" →
          f.Value ≠ (⟨"U4", "hello", "C1"⟩ : AppMentionEvent).User := by
  refine ⟨rfl, by decide, ?_⟩
  intro h
  have hp : (("C42", ⟨"#4af030", "Greetings", "Hello, Dana D",
      [⟨"Date", "t1", false⟩, ⟨"Initializer", "U4", true⟩]⟩) : String × Attachment) ∈
      posts ((handleAppMentionEvent mirror ⟨"U4", "hello", "C1"⟩ ⟨0, []⟩).2.since
        ⟨0, []⟩) := by decide
  exact h _ hp ⟨"Initializer", "U4", true⟩ (by decide) rfl rfl

/-- C5 amended: in either branch the posted attachment has exactly two fields, in
this order: "Date" holding the local timestamp rendered at that moment, then the
short field "Initializer" holding the name of the looked-up user (the spec's
display name, `user.Name`). The value is read from the lookup result and not from
the event: it equals the identifier carried by the event exactly when the resolved
name is that same string. -/
theorem reply_fields {σ : Type} (P : Platform σ) (ev : AppMentionEvent) (s : State σ)
    (user : User) (hlook : (P.GetUserInfo ev.User s.world).1 = .ok user) :
    (posts ((handleAppMentionEvent P ev s).2.since s)).map (fun p => p.2.Fields) =
      [[⟨"Date", P.Now (P.GetUserInfo ev.User s.world).2, false⟩,
        ⟨"Initializer", user.Name, true⟩]] ∧
    (∀ p ∈ posts ((handleAppMentionEvent P ev s).2.since s), ∀ f ∈ p.2.Fields,
      f.Title = "Initializer" →
        f.Value = user.Name ∧ f.Short = true ∧ (f.Value = ev.User ↔ user.Name = ev.User)) := by
  rw [since_handleAppMentionEvent_ok P ev s user hlook]
  have hf : (replyAttachment P ev user (P.GetUserInfo ev.User s.world).2).Fields =
      [⟨"Date", P.Now (P.GetUserInfo ev.User s.world).2, false⟩,
        ⟨"Initializer", user.Name, true⟩] := by
    unfold replyAttachment
    split_ifs <;> rfl
  refine ⟨by simp [posts, hf], fun p hp f hfm htitle => ?_⟩
  simp only [posts, List.mem_singleton] at hp
  subst hp
  simp only [hf, List.mem_cons, List.mem_singleton, List.not_mem_nil, or_false] at hfm
  rcases hfm with rfl | rfl
  · exact absurd htitle (show ¬ ("Date" = "Initializer") by decide)
  · exact ⟨rfl, rfl, Iff.rfl⟩

/-- Witness of the amended C5 on the demo platform: `U1` resolves to the name
"alice", which is what the "Initializer" field of the reply holds. -/
theorem reply_fields_witness :
    (demo.GetUserInfo "U1" 0).1 = .ok ⟨"U1", "alice", "Alice A"⟩ ∧
    (posts ((handleAppMentionEvent demo ⟨"U1", "good morning", "C1"⟩ ⟨0, []⟩).2.since
        ⟨0, []⟩)).map (fun p => p.2.Fields) =
      [[⟨"Date", demo.Now 1, false⟩, ⟨"Initializer", "alice", true⟩]] ∧
    ((⟨"Initializer", "alice", true⟩ : AttachmentField).Value = "alice" ∧
      (⟨"Initializer", "alice", true⟩ : AttachmentField).Short = true ∧
      ((⟨"Initializer", "alice", true⟩ : AttachmentField).Value = "U1" ↔ "alice" = "U1")) :=
  ⟨rfl,
    (reply_fields demo ⟨"U1", "good morning", "C1"⟩ ⟨0, []⟩ ⟨"U1", "alice", "Alice A"⟩ rfl).1,
    (reply_fields demo ⟨"U1", "good morning", "C1"⟩ ⟨0, []⟩ ⟨"U1", "alice", "Alice A"⟩ rfl).2
      ("C42", ⟨"#3d3d3d", "How can I be of service?", "How can I help you Alice A?",
        [⟨"Date", "t1", false⟩, ⟨"Initializer", "alice", true⟩]⟩)
      (by decide) ⟨"Initializer", "alice", true⟩ (by decide) rfl⟩

/-- C6 as stated fails: for the user named "alice" whose real name is "Alice A",
the mention "@bot hello there" is answered with an attachment whose "Initializer"
value is "alice", not "Alice A". -/
theorem scenario_initializer_counterexample :
    posts ((handleAppMentionEvent demo ⟨"U1", "@bot hello there", "C1"⟩ ⟨0, []⟩).2.since
        ⟨0, []⟩) =
      [("C42", ⟨"#4af030", "Greetings", "Hello, Alice A",
        [⟨"Date", "t1", false⟩, ⟨"Initializer", "alice", true⟩]⟩)] ∧
    ¬ ∃ ch ts, posts ((handleAppMentionEvent demo ⟨"U1", "@bot hello there", "C1"⟩
        ⟨0, []⟩).2.since ⟨0, []⟩) =
      [(ch, ⟨"#4af030", "Greetings", "Hello, Alice A",
        [⟨"Date", ts, false⟩, ⟨"Initializer", "Alice A", true⟩]⟩)] := by
  have h : posts ((handleAppMentionEvent demo ⟨"U1", "@bot hello there", "C1"⟩
      ⟨0, []⟩).2.since ⟨0, []⟩) =
      [("C42", ⟨"#4af030", "Greetings", "Hello, Alice A",
        [⟨"Date", "t1", false⟩, ⟨"Initializer", "alice", true⟩]⟩)] := by decide
  refine ⟨h, ?_⟩
  rintro ⟨ch, ts, h2⟩
  rw [h] at h2
  simp at h2

/-- C6 amended: for the mention "@bot hello there" from a user named "alice" whose
real name is "Alice A", the one attachment posted is pretext "Greetings", text
"Hello, Alice A", colour "#4af030", fields "Date" (the timestamp) and "Initializer"
with value "alice", the user's name. -/
theorem scenario_initializer {σ : Type} (P : Platform σ) (ev : AppMentionEvent)
    (s : State σ) (user : User) (hlook : (P.GetUserInfo ev.User s.world).1 = .ok user)
    (htext : ev.Text = "@bot hello there") (hname : user.Name = "alice")
    (hreal : user.RealName = "Alice A") :
    (posts ((handleAppMentionEvent P ev s).2.since s)).map (fun p => p.2) =
      [⟨"#4af030", "Greetings", "Hello, Alice A",
        [⟨"Date", P.Now (P.GetUserInfo ev.User s.world).2, false⟩,
          ⟨"Initializer", "alice", true⟩]⟩] := by
  rw [since_handleAppMentionEvent_ok P ev s user hlook]
  have hc : Contains (ToLower P.unicodeLower ev.Text) "hello" = true := by
    rw [htext]; rfl
  simp only [posts, replyAttachment, hc, hname, hreal, List.map]
  rfl

/-- Witness of the amended C6 on the demo platform. -/
theorem scenario_initializer_witness :
    (demo.GetUserInfo "U1" 0).1 = .ok ⟨"U1", "alice", "Alice A"⟩ ∧
    (posts ((handleAppMentionEvent demo ⟨"U1", "@bot hello there", "C1"⟩ ⟨0, []⟩).2.since
        ⟨0, []⟩)).map (fun p => p.2) =
      [⟨"#4af030", "Greetings", "Hello, Alice A",
        [⟨"Date", demo.Now 1, false⟩, ⟨"Initializer", "alice", true⟩]⟩] :=
  ⟨rfl,
    scenario_initializer demo ⟨"U1", "@bot hello there", "C1"⟩ ⟨0, []⟩
      ⟨"U1", "alice", "Alice A"⟩ rfl rfl rfl rfl⟩

/-- C7: every post of `handleAppMentionEvent` goes to the channel configured as
`SLACK_CHANNEL_ID`; two mention events, whatever their channel, user and text, and
whatever the states they arrive in, are posted to the same destination. -/
theorem destination_fixed {σ : Type} (P : Platform σ) (ev1 ev2 : AppMentionEvent)
    (s1 s2 : State σ) :
    (∀ p ∈ posts ((handleAppMentionEvent P ev1 s1).2.since s1),
      p.1 = P.Getenv "SLACK_CHANNEL_ID") ∧
    (∀ p1 ∈ posts ((handleAppMentionEvent P ev1 s1).2.since s1),
      ∀ p2 ∈ posts ((handleAppMentionEvent P ev2 s2).2.since s2), p1.1 = p2.1) := by
  have key : ∀ (ev : AppMentionEvent) (s : State σ),
      ∀ p ∈ posts ((handleAppMentionEvent P ev s).2.since s),
        p.1 = P.Getenv "SLACK_CHANNEL_ID" := by
    intro ev s p hp
    rcases since_handleAppMentionEvent P ev s with h | ⟨att, h⟩
    · rw [h] at hp; simp [posts] at hp
    · rw [h] at hp
      simp only [posts, List.mem_singleton] at hp
      rw [hp]
  exact ⟨key ev1 s1, fun p1 h1 p2 h2 => (key ev1 s1 p1 h1).trans (key ev2 s2 p2 h2).symm⟩

/-- Witness of C7 on the demo platform: a mention in channel `C1` is answered in
the configured channel `C42`. -/
theorem destination_fixed_witness :
    ("C42", replyAttachment demo ⟨"U1", "hello", "C1"⟩ ⟨"U1", "alice", "Alice A"⟩ 1) ∈
      posts ((handleAppMentionEvent demo ⟨"U1", "hello", "C1"⟩ ⟨0, []⟩).2.since ⟨0, []⟩) ∧
    "C42" = demo.Getenv "SLACK_CHANNEL_ID" :=
  ⟨by decide,
    (destination_fixed demo ⟨"U1", "hello", "C1"⟩ ⟨"U2", "bye", "C7"⟩ ⟨0, []⟩ ⟨5, []⟩).1
      ("C42", replyAttachment demo ⟨"U1", "hello", "C1"⟩ ⟨"U1", "alice", "Alice A"⟩ 1)
      (by decide)⟩

/-- C8: the result of `handleEventMessage` by event shape: a type other than the
callback type gives the non-nil error "unsupported event type" and changes
nothing; a callback whose payload is not an app mention gives nil and changes
nothing; a callback carrying an app mention gives exactly what
`handleAppMentionEvent` gives. -/
theorem result_by_shape {σ : Type} (P : Platform σ) (x : EventsAPIEvent) (s : State σ) :
    (x.Type_ ≠ P.CallbackEvent →
      handleEventMessage P x s = (some ⟨"unsupported event type"⟩, s)) ∧
    (x.Type_ = P.CallbackEvent → ∀ kind, x.InnerEvent.Data = .other kind →
      handleEventMessage P x s = (none, s)) ∧
    (x.Type_ = P.CallbackEvent → ∀ ev, x.InnerEvent.Data = .appMention ev →
      handleEventMessage P x s = handleAppMentionEvent P ev s) := by
  rw [handleEventMessage_eq]
  refine ⟨fun h => ?_, fun h kind hd => ?_, fun h ev hd => ?_⟩
  · rw [if_neg h]
  · rw [if_pos h, hd]
  · rw [if_pos h, hd]

/-- Witness of C8 on the demo platform: a "hello" event is not a callback. -/
theorem result_by_shape_witness :
    "hello" ≠ demo.CallbackEvent ∧
    handleEventMessage demo ⟨"hello", ⟨"", .other "none"⟩⟩ ⟨0, []⟩ =
      (some ⟨"unsupported event type"⟩, ⟨0, []⟩) :=
  ⟨by decide,
    (result_by_shape demo ⟨"hello", ⟨"", .other "none"⟩⟩ ⟨0, []⟩).1 (by decide)⟩

/-! ## The dispatch loop -/

theorem trace_handleAppMentionEvent {σ : Type} (P : Platform σ) (ev : AppMentionEvent)
    (s : State σ) :
    (handleAppMentionEvent P ev s).2.trace =
      s.trace ++ (handleAppMentionEvent P ev s).2.since s := by
  cases h : (P.GetUserInfo ev.User s.world).1 with
  | error err =>
    rw [since_handleAppMentionEvent_error P ev s err h, handleAppMentionEvent_error P ev s err h]
  | ok user =>
    rw [since_handleAppMentionEvent_ok P ev s user h, handleAppMentionEvent_ok P ev s user h]

theorem trace_handleEventMessage {σ : Type} (P : Platform σ) (x : EventsAPIEvent)
    (s : State σ) :
    (handleEventMessage P x s).2.trace = s.trace ++ (handleEventMessage P x s).2.since s := by
  rw [since_handleEventMessage, handleEventMessage_eq]
  split_ifs with h
  · cases hd : x.InnerEvent.Data with
    | appMention ev => exact trace_handleAppMentionEvent P ev s
    | other k => simp
  · simp

theorem acks_handleEventMessage {σ : Type} (P : Platform σ) (x : EventsAPIEvent)
    (s : State σ) : acks ((handleEventMessage P x s).2.since s) = [] := by
  rw [since_handleEventMessage]
  split_ifs with h
  · cases hd : x.InnerEvent.Data with
    | appMention ev =>
      rcases since_handleAppMentionEvent P ev s with h1 | ⟨att, h1⟩ <;> simp [h1, acks]
    | other k => rfl
  · rfl

/-- Trace of one round of the loop on a dispatched event: the acknowledgement,
then the calls of the handler, then the log line when the handler failed. -/
theorem trace_processEvent_dispatched {σ : Type} (P : Platform σ) (e : Event)
    (s : State σ) (x : EventsAPIEvent) (ht : e.Type_ = P.EventTypeEventsAPI)
    (hd : e.Data = .eventsAPI x) :
    (processEvent P e s).trace =
      s.trace ++ Call.ack e.Request ::
        ((handleEventMessage P x
            ⟨P.Ack e.Request s.world, s.trace ++ [Call.ack e.Request]⟩).2.since
            ⟨P.Ack e.Request s.world, s.trace ++ [Call.ack e.Request]⟩ ++
          match (handleEventMessage P x
            ⟨P.Ack e.Request s.world, s.trace ++ [Call.ack e.Request]⟩).1 with
          | some err => [Call.logError err]
          | none => []) := by
  simp only [processEvent, ht, hd, if_true, State.record]
  cases hr : (handleEventMessage P x
      ⟨P.Ack e.Request s.world, s.trace ++ [Call.ack e.Request]⟩).1 with
  | none =>
    simp only [List.append_nil]
    rw [trace_handleEventMessage]
    simp
  | some err =>
    simp only
    rw [trace_handleEventMessage]
    simp

theorem since_processEvent_dispatched {σ : Type} (P : Platform σ) (e : Event)
    (s : State σ) (x : EventsAPIEvent) (ht : e.Type_ = P.EventTypeEventsAPI)
    (hd : e.Data = .eventsAPI x) :
    (processEvent P e s).since s =
      Call.ack e.Request ::
        ((handleEventMessage P x
            ⟨P.Ack e.Request s.world, s.trace ++ [Call.ack e.Request]⟩).2.since
            ⟨P.Ack e.Request s.world, s.trace ++ [Call.ack e.Request]⟩ ++
          match (handleEventMessage P x
            ⟨P.Ack e.Request s.world, s.trace ++ [Call.ack e.Request]⟩).1 with
          | some err => [Call.logError err]
          | none => []) :=
  since_of_append _ _ _ (trace_processEvent_dispatched P e s x ht hd)

theorem since_processEvent_cast {σ : Type} (P : Platform σ) (e : Event)
    (s : State σ) (kind : String) (ht : e.Type_ = P.EventTypeEventsAPI)
    (hd : e.Data = .other kind) :
    (processEvent P e s).since s = [Call.logCastFailure e] := by
  apply since_of_append
  simp only [processEvent, ht, hd, if_true, State.record]

theorem processEvent_other {σ : Type} (P : Platform σ) (e : Event)
    (s : State σ) (ht : e.Type_ ≠ P.EventTypeEventsAPI) : processEvent P e s = s := by
  simp only [processEvent, ht, if_false]

theorem since_self {σ : Type} (s : State σ) : s.since s = [] := by
  simp [State.since]

/-- One round of the loop extends the trace, and acknowledges the event exactly
when it is dispatched. -/
theorem processEvent_trace {σ : Type} (P : Platform σ) (e : Event) (s : State σ) :
    ∃ extra, (processEvent P e s).trace = s.trace ++ extra ∧
      acks extra = if e.dispatched P then [e.Request] else [] := by
  by_cases ht : e.Type_ = P.EventTypeEventsAPI
  · cases hd : e.Data with
    | eventsAPI x =>
      refine ⟨_, trace_processEvent_dispatched P e s x ht hd, ?_⟩
      simp only [Event.dispatched, ht, hd, decide_True, Bool.and_self, if_true]
      cases (handleEventMessage P x
          ⟨P.Ack e.Request s.world, s.trace ++ [Call.ack e.Request]⟩).1 <;>
        simp [acks_append, acks, acks_handleEventMessage]
    | other k =>
      refine ⟨[Call.logCastFailure e], ?_, ?_⟩
      · simp only [processEvent, ht, hd, if_true, State.record]
      · simp [Event.dispatched, ht, hd, acks]
  · refine ⟨[], ?_, ?_⟩
    · rw [processEvent_other P e s ht]; simp
    · simp [Event.dispatched, ht, acks]

theorem processNewEvents_events {σ : Type} (P : Platform σ) (evs : List Event)
    (rest : List Selected) (s : State σ) :
    processNewEvents P (evs.map Selected.event ++ rest) s =
      processNewEvents P rest (evs.foldl (fun st ev => processEvent P ev st) s) := by
  induction evs generalizing s with
  | nil => rfl
  | cons e evs ih => exact ih (processEvent P e s)

theorem foldl_processEvent_trace {σ : Type} (P : Platform σ) (evs : List Event)
    (s : State σ) :
    ∃ extra, (evs.foldl (fun st ev => processEvent P ev st) s).trace = s.trace ++ extra ∧
      acks extra = (evs.filter (Event.dispatched P)).map (fun ev => ev.Request) := by
  induction evs generalizing s with
  | nil => exact ⟨[], by simp, rfl⟩
  | cons e evs ih =>
    obtain ⟨x1, h1, a1⟩ := processEvent_trace P e s
    obtain ⟨x2, h2, a2⟩ := ih (processEvent P e s)
    refine ⟨x1 ++ x2, ?_, ?_⟩
    · rw [List.foldl_cons, h2, h1, List.append_assoc]
    · rw [acks_append, a1, a2]
      cases hd : e.dispatched P <;> simp [List.filter_cons, hd]

/-- C9 as stated fails: an event of the events-API category whose data is not an
events-API payload is logged and skipped, without any acknowledgement. -/
theorem ack_counterexample :
    (⟨"events_api", .other "string", ⟨"env-1"⟩⟩ : Event).Type_ = demo.EventTypeEventsAPI ∧
    (processEvent demo ⟨"events_api", .other "string", ⟨"env-1"⟩⟩ ⟨0, []⟩).since ⟨0, []⟩ =
      [Call.logCastFailure ⟨"events_api", .other "string", ⟨"env-1"⟩⟩] ∧
    acks ((processEvent demo ⟨"events_api", .other "string", ⟨"env-1"⟩⟩ ⟨0, []⟩).since
      ⟨0, []⟩) = [] := by
  decide

/-- C9 amended: an event of the events-API category that carries an events-API
payload is acknowledged with its own request exactly once, as the first call of
its round: the handler (narrowing, lookup, post) runs from the state reached by the
acknowledgement, and the acknowledgement is there whatever the handler returns.
An events-API event with another payload is only logged; an event of any other
category leaves the state untouched, so no acknowledgement, lookup or post. -/
theorem ack_first {σ : Type} (P : Platform σ) (e : Event) (s : State σ) :
    (e.Type_ = P.EventTypeEventsAPI → ∀ x, e.Data = .eventsAPI x →
      (processEvent P e s).since s =
        Call.ack e.Request ::
          ((handleEventMessage P x
              ⟨P.Ack e.Request s.world, s.trace ++ [Call.ack e.Request]⟩).2.since
              ⟨P.Ack e.Request s.world, s.trace ++ [Call.ack e.Request]⟩ ++
            match (handleEventMessage P x
              ⟨P.Ack e.Request s.world, s.trace ++ [Call.ack e.Request]⟩).1 with
            | some err => [Call.logError err]
            | none => []) ∧
      acks ((processEvent P e s).since s) = [e.Request]) ∧
    (e.Type_ = P.EventTypeEventsAPI → ∀ kind, e.Data = .other kind →
      (processEvent P e s).since s = [Call.logCastFailure e] ∧
      (processEvent P e s).world = s.world) ∧
    (e.Type_ ≠ P.EventTypeEventsAPI →
      processEvent P e s = s ∧
      acks ((processEvent P e s).since s) = [] ∧
      lookups ((processEvent P e s).since s) = [] ∧
      posts ((processEvent P e s).since s) = []) := by
  refine ⟨fun ht x hd => ⟨since_processEvent_dispatched P e s x ht hd, ?_⟩,
    fun ht kind hd => ⟨since_processEvent_cast P e s kind ht hd, ?_⟩, fun ht => ?_⟩
  · rw [since_processEvent_dispatched P e s x ht hd]
    cases (handleEventMessage P x
        ⟨P.Ack e.Request s.world, s.trace ++ [Call.ack e.Request]⟩).1 <;>
      simp [acks_append, acks, acks_handleEventMessage]
  · simp only [processEvent, ht, hd, if_true, State.record]
  · rw [processEvent_other P e s ht, since_self]
    exact ⟨rfl, rfl, rfl, rfl⟩

/-- Witness of the amended C9 on the demo platform: a callback mention by the
unknown user `U9` is acknowledged first, although its handler then fails. -/
theorem ack_first_witness :
    (⟨"events_api",
        .eventsAPI ⟨"event_callback", ⟨"app_mention", .appMention ⟨"U9", "hello", "C1"⟩⟩⟩,
        ⟨"env-2"⟩⟩ : Event).Type_ = demo.EventTypeEventsAPI ∧
    (processEvent demo ⟨"events_api",
        .eventsAPI ⟨"event_callback", ⟨"app_mention", .appMention ⟨"U9", "hello", "C1"⟩⟩⟩,
        ⟨"env-2"⟩⟩ ⟨0, []⟩).since ⟨0, []⟩ =
      [Call.ack ⟨"env-2"⟩, Call.getUserInfo "U9", Call.logError ⟨"user_not_found"⟩] ∧
    acks ((processEvent demo ⟨"events_api",
        .eventsAPI ⟨"event_callback", ⟨"app_mention", .appMention ⟨"U9", "hello", "C1"⟩⟩⟩,
        ⟨"env-2"⟩⟩ ⟨0, []⟩).since ⟨0, []⟩) = [⟨"env-2"⟩] :=
  ⟨rfl, by decide,
    ((ack_first demo ⟨"events_api",
        .eventsAPI ⟨"event_callback", ⟨"app_mention", .appMention ⟨"U9", "hello", "C1"⟩⟩⟩,
        ⟨"env-2"⟩⟩ ⟨0, []⟩).1 rfl _ rfl).2⟩

/-- C10: the events received before cancellation are processed one at a time in
arrival order: the loop's state after them is the left fold of the per-event step.
Whatever an event `e` of the sequence returns, the events after it are processed
by the same step from the state `e` left; when the handler of `e` fails, the error
is logged in its round and nothing more. Every dispatched event of the sequence is
acknowledged, in order. -/
theorem loop_continues {σ : Type} (P : Platform σ) (pre post : List Event) (e : Event)
    (rest : List Selected) (s : State σ) :
    processNewEvents P ((pre ++ e :: post).map Selected.event ++ rest) s =
      processNewEvents P rest
        (post.foldl (fun st ev => processEvent P ev st)
          (processEvent P e (pre.foldl (fun st ev => processEvent P ev st) s))) ∧
    acks ((processNewEvents P ((pre ++ e :: post).map Selected.event) s).since s) =
      ((pre ++ e :: post).filter (Event.dispatched P)).map (fun ev => ev.Request) ∧
    (∀ x err, e.Type_ = P.EventTypeEventsAPI → e.Data = .eventsAPI x →
      (handleEventMessage P x
        ⟨P.Ack e.Request (pre.foldl (fun st ev => processEvent P ev st) s).world,
          (pre.foldl (fun st ev => processEvent P ev st) s).trace ++
            [Call.ack e.Request]⟩).1 = some err →
      ∃ mid, (processEvent P e (pre.foldl (fun st ev => processEvent P ev st) s)).since
          (pre.foldl (fun st ev => processEvent P ev st) s) =
        Call.ack e.Request :: (mid ++ [Call.logError err])) := by
  refine ⟨?_, ?_, ?_⟩
  · rw [processNewEvents_events, List.foldl_append, List.foldl_cons]
  · have h := processNewEvents_events P (pre ++ e :: post) [] s
    rw [List.append_nil] at h
    rw [h]
    obtain ⟨extra, ht, ha⟩ := foldl_processEvent_trace P (pre ++ e :: post) s
    have hs := since_of_append _ s extra (show (processNewEvents P []
      ((pre ++ e :: post).foldl (fun st ev => processEvent P ev st) s)).trace =
        s.trace ++ extra from ht)
    rw [hs, ha]
  · intro x err ht hd herr
    refine ⟨(handleEventMessage P x
      ⟨P.Ack e.Request (pre.foldl (fun st ev => processEvent P ev st) s).world,
        (pre.foldl (fun st ev => processEvent P ev st) s).trace ++
          [Call.ack e.Request]⟩).2.since
      ⟨P.Ack e.Request (pre.foldl (fun st ev => processEvent P ev st) s).world,
        (pre.foldl (fun st ev => processEvent P ev st) s).trace ++
          [Call.ack e.Request]⟩, ?_⟩
    rw [since_processEvent_dispatched P e _ x ht hd, herr]

/-- Witness of C10 on the demo platform: a non-callback event (unsupported type)
is followed by a mention of the unknown user `U9` and a mention by `U1`; the first
two fail, all three are acknowledged, and the third is answered. -/
theorem loop_continues_witness :
    (processNewEvents demo
      ([ (⟨"events_api", .eventsAPI ⟨"url_verification", ⟨"", .other "none"⟩⟩,
            ⟨"env-1"⟩⟩ : Event),
         ⟨"events_api",
            .eventsAPI ⟨"event_callback", ⟨"app_mention", .appMention ⟨"U9", "hi", "C1"⟩⟩⟩,
            ⟨"env-2"⟩⟩,
         ⟨"events_api",
            .eventsAPI ⟨"event_callback", ⟨"app_mention", .appMention ⟨"U1", "hi", "C1"⟩⟩⟩,
            ⟨"env-3"⟩⟩ ].map Selected.event) ⟨0, []⟩).trace =
      [Call.ack ⟨"env-1"⟩, Call.logError ⟨"unsupported event type"⟩,
        Call.ack ⟨"env-2"⟩, Call.getUserInfo "U9", Call.logError ⟨"user_not_found"⟩,
        Call.ack ⟨"env-3"⟩, Call.getUserInfo "U1",
        Call.postMessage "C42" ⟨"#3d3d3d", "How can I be of service?",
          "How can I help you Alice A?",
          [⟨"Date", "t5", false⟩, ⟨"Initializer", "alice", true⟩]⟩] ∧
    ∃ mid, (processEvent demo ⟨"events_api",
          .eventsAPI ⟨"url_verification", ⟨"", .other "none"⟩⟩, ⟨"env-1"⟩⟩ ⟨0, []⟩).since
        ⟨0, []⟩ =
      Call.ack ⟨"env-1"⟩ :: (mid ++ [Call.logError ⟨"unsupported event type"⟩]) :=
  ⟨by decide,
    (loop_continues demo []
      [⟨"events_api",
          .eventsAPI ⟨"event_callback", ⟨"app_mention", .appMention ⟨"U9", "hi", "C1"⟩⟩⟩,
          ⟨"env-2"⟩⟩,
       ⟨"events_api",
          .eventsAPI ⟨"event_callback", ⟨"app_mention", .appMention ⟨"U1", "hi", "C1"⟩⟩⟩,
          ⟨"env-3"⟩⟩]
      ⟨"events_api", .eventsAPI ⟨"url_verification", ⟨"", .other "none"⟩⟩, ⟨"env-1"⟩⟩
      [] ⟨0, []⟩).2.2 _ _ rfl rfl rfl⟩

end SlackBot
